import Mathlib

/-!
Verification of the Game of Life core (`Universe`, `Cell`, `State`) against
its design specification.

The source is a Rust library.  We shallow-embed it as follows:

* `State` is the two-variant cell state enum.
* `Cell` is the bitfield struct holding a `state` (1 bit) and a cached
  `live_neighbors` count (`B7`, 7 bits).  The derived `PartialEq`/`Eq` on the
  bitfield compares the whole byte, i.e. both fields; structure equality in
  Lean models this.  The 7-bit setter `set_live_neighbors` panics when the
  value does not fit in 7 bits; the model returns `none` in that case.
* `Universe` owns a dense grid (`H` rows of `W` cells) together with the
  `width`/`height` fields the Rust struct stores.  The Rust const generics
  guarantee the grid shape; the model states that guarantee as the
  well-formedness predicate `Universe.wf`.
* Rust array indexing panics out of bounds and `%` panics on a zero divisor;
  fallible operations therefore return `Option`, with `none` for a panic.
  Counts live in `u8` but never exceed 8, so plain `Nat` arithmetic is exact.
-/

/-- The state of a Cell (Rust `enum State { Dead, Alive }`). -/
inductive State where
  | Dead : State
  | Alive : State
deriving DecidableEq, Repr

/-- The Rust cast `state as u8` (enum discriminants: `Dead = 0`, `Alive = 1`). -/
def State.asU8 : State → Nat
  | State.Dead => 0
  | State.Alive => 1

/-- The `Cell` bitfield: a state bit plus a 7-bit cached live-neighbor count. -/
structure Cell where
  state : State
  live_neighbors : Nat
deriving DecidableEq, Repr

/-- `Cell::new()`: all bits zero, i.e. `Dead` with a zero cached count. -/
def Cell.new : Cell := { state := State.Dead, live_neighbors := 0 }

/-- `Cell::default()` delegates to `Cell::new()`. -/
def Cell.default : Cell := Cell.new

/-- `Cell::evolve`: sets a new state from the current state and the cached
live-neighbor count; the cached count itself is left in place. -/
def Cell.evolve (c : Cell) : Cell :=
  let s :=
    match c.state, c.live_neighbors with
    | State.Dead, 3 => State.Alive
    | State.Alive, 2 => State.Alive
    | State.Alive, 3 => State.Alive
    | _, _ => State.Dead
  { c with state := s }

/-- `Cell::is_alive`. -/
def Cell.is_alive (c : Cell) : Bool := c.state = State.Alive

/-- The `Universe` struct: the grid plus the stored `width`/`height` fields. -/
structure Universe where
  grid : List (List Cell)
  height : Nat
  width : Nat
deriving DecidableEq

/-- What the Rust types `[[Cell; W]; H]` with `width = W`, `height = H`
guarantee about every reachable `Universe<W, H>` value. -/
def Universe.wf (u : Universe) : Prop :=
  u.grid.length = u.height ∧ ∀ row ∈ u.grid, row.length = u.width

/-- `Universe::<W, H>::new()`: a `W × H` grid of default (dead) cells. -/
def Universe.new (W H : Nat) : Universe :=
  { width := W, height := H, grid := List.replicate H (List.replicate W Cell.default) }

/-- Reading entry `(row, column)` of the grid array; `none` models the
out-of-bounds indexing panic. -/
def Universe.getCell (u : Universe) (row column : Nat) : Option Cell :=
  match u.grid[row]? with
  | none => none
  | some r => r[column]?

/-- Total view of entry `(row, column)` (meaningful in bounds, where it
agrees with `Universe.getCell`). -/
def Universe.cellAt (u : Universe) (row column : Nat) : Cell :=
  (u.getCell row column).getD Cell.new

/-- Total view of the state at `(row, column)`. -/
def Universe.stateAt (u : Universe) (row column : Nat) : State :=
  (u.cellAt row column).state

/-- `Universe::set_cell`: `self.grid[row][column].set_state(state)`.
Indexing panics (`none`) out of bounds; the cached count is untouched. -/
def Universe.set_cell (u : Universe) (row column : Nat) (state : State) :
    Option Universe :=
  match u.grid[row]? with
  | none => none
  | some r =>
    match r[column]? with
    | none => none
    | some cell =>
      some { u with grid := u.grid.set row (r.set column { cell with state := state }) }

/-- Rust `a % b`: `%` with a zero divisor panics (`none`). -/
def modChecked (a b : Nat) : Option Nat :=
  if b = 0 then none else some (a % b)

/-- `Universe::live_neighbor_count`: fold over the delta lists
`[height - 1, 0, 1]` and `[width - 1, 0, 1]`, skipping the pair whose two
deltas are both `0`, summing `state as u8` of the wrapped neighbor. -/
def Universe.live_neighbor_count (u : Universe) (row column : Nat) : Option Nat :=
  List.foldl
    (fun acc delta_row =>
      List.foldl
        (fun acc2 delta_col =>
          if delta_row = 0 ∧ delta_col = 0 then acc2
          else
            acc2.bind fun count =>
              (modChecked (row + delta_row) u.height).bind fun neighbor_row =>
                (modChecked (column + delta_col) u.width).bind fun neighbor_col =>
                  (u.getCell neighbor_row neighbor_col).map fun cell =>
                    count + cell.state.asU8)
        acc [u.width - 1, 0, 1])
    (some 0) [u.height - 1, 0, 1]

/-- `self.grid[row][column].set_live_neighbors(n)`: indexing panics out of
bounds, and the `B7` setter panics when the value needs more than 7 bits. -/
def Universe.setCache (u : Universe) (row column n : Nat) : Option Universe :=
  if n < 128 then
    match u.grid[row]? with
    | none => none
    | some r =>
      match r[column]? with
      | none => none
      | some cell =>
        some { u with grid := u.grid.set row (r.set column { cell with live_neighbors := n }) }
  else none

/-- The row-major index pairs visited by
`for row in 0..height { for column in 0..width { ... } }`. -/
def indexPairs (h w : Nat) : List (Nat × Nat) :=
  (List.range h).flatMap fun r => (List.range w).map fun c => (r, c)

/-- The first pass of `Universe::evolve`: for each position in row-major
order, compute the live-neighbor count from the grid as it currently stands
and store it in the cell's cache. -/
def Universe.cacheNeighbors (u : Universe) : Option Universe :=
  List.foldlM
    (fun acc p =>
      (Universe.live_neighbor_count acc p.1 p.2).bind fun n =>
        Universe.setCache acc p.1 p.2 n)
    u (indexPairs u.height u.width)

/-- `Universe::evolve`: cache all neighbor counts, then let every cell
transition independently (`iter_mut().for_each(|cell| cell.evolve())`). -/
def Universe.evolve (u : Universe) : Option Universe :=
  (u.cacheNeighbors).map fun u2 =>
    { u2 with grid := u2.grid.map fun row => row.map Cell.evolve }

/-- The testing helper `Universe::state_grid`: the grid with each cell
projected to its state. -/
def Universe.state_grid (u : Universe) : List (List State) :=
  u.grid.map fun row => row.map Cell.state

/-! ## Reference definitions taken from the specification's words

These are deliberately written from the spec, to be compared with the
definitions above that embed the source. -/

/-- The spec's offset pairs: `(Δrow, Δcol) ∈ {H-1, 0, 1} × {W-1, 0, 1}`
excluding `(0, 0)`. -/
def offsetPairs (h w : Nat) : List (Nat × Nat) :=
  ((([h - 1, 0, 1]).flatMap fun dr => ([w - 1, 0, 1]).map fun dc => (dr, dc)).filter
    fun p => !(p.1 == 0 && p.2 == 0))

/-- The spec's neighbor count: sum `1` for each offset pair whose wrapped
neighbor `((row + Δrow) mod H, (column + Δcol) mod W)` is `Alive`, `0`
otherwise. -/
def specNeighborSum (u : Universe) (row column : Nat) : Nat :=
  ((offsetPairs u.height u.width).map fun p =>
    (u.stateAt ((row + p.1) % u.height) ((column + p.2) % u.width)).asU8).sum

/-- The spec's transition table (B3/S23): `Alive` with fewer than 2 live
neighbors dies, with 2 or 3 survives, with more than 3 dies; `Dead` with
exactly 3 becomes `Alive`, otherwise stays `Dead`. -/
def lifeRule (s : State) (n : Nat) : State :=
  match s with
  | State.Alive =>
    if n < 2 then State.Dead
    else if n = 2 ∨ n = 3 then State.Alive
    else State.Dead
  | State.Dead => if n = 3 then State.Alive else State.Dead

/-- The naive double-buffered next generation: every cell's next state is
computed from the unmodified pre-evolve grid. -/
def specNextStateGrid (u : Universe) : List (List State) :=
  (List.range u.height).map fun r =>
    (List.range u.width).map fun c =>
      lifeRule (u.stateAt r c) (specNeighborSum u r c)

/-! ## Basic access lemmas -/

theorem Universe.getCell_eq_some (u : Universe) (hwf : u.wf) {row column : Nat}
    (hr : row < u.height) (hc : column < u.width) :
    u.getCell row column = some (u.cellAt row column) := by
  obtain ⟨hlen, hrow⟩ := hwf
  have hr' : row < u.grid.length := by rwa [hlen]
  have hrlen : u.grid[row].length = u.width := hrow _ (u.grid.getElem_mem hr')
  have hc' : column < u.grid[row].length := by rwa [hrlen]
  simp [Universe.getCell, Universe.cellAt, List.getElem?_eq_getElem, hr', hc']

theorem Universe.getCell_isSome_iff (u : Universe) (hwf : u.wf) (row column : Nat) :
    (u.getCell row column).isSome ↔ row < u.height ∧ column < u.width := by
  obtain ⟨hlen, hrow⟩ := hwf
  constructor
  · intro h
    unfold Universe.getCell at h
    by_cases hr : row < u.grid.length
    · have hrlen : u.grid[row].length = u.width := hrow _ (u.grid.getElem_mem hr)
      refine ⟨by rwa [hlen] at hr, ?_⟩
      by_cases hc : column < u.grid[row].length
      · rwa [hrlen] at hc
      · rw [List.getElem?_eq_getElem hr] at h
        simp [List.getElem?_eq_none (Nat.le_of_not_lt hc)] at h
    · simp [List.getElem?_eq_none (Nat.le_of_not_lt hr)] at h
  · rintro ⟨hr, hc⟩
    rw [u.getCell_eq_some ⟨hlen, hrow⟩ hr hc]
    rfl

theorem Universe.stateAt_eq (u : Universe) (row column : Nat) :
    u.stateAt row column = (u.cellAt row column).state := rfl

theorem State.asU8_le_one (s : State) : s.asU8 ≤ 1 := by
  cases s <;> simp [State.asU8]

/-- `set_cell` on an in-bounds position succeeds, keeps the dimensions and
shape, rewrites exactly the addressed cell's state (cache untouched), and
leaves every other position alone. -/
theorem Universe.set_cell_spec (u : Universe) (hwf : u.wf) {row column : Nat}
    (hr : row < u.height) (hc : column < u.width) (s : State) :
    ∃ u2, u.set_cell row column s = some u2 ∧ u2.height = u.height ∧ u2.width = u.width ∧
      u2.wf ∧ ∀ r c, u2.getCell r c =
        if r = row ∧ c = column then some { u.cellAt row column with state := s }
        else u.getCell r c := by
  obtain ⟨hlen, hrows⟩ := hwf
  have hr' : row < u.grid.length := by rwa [hlen]
  have hrowlen : (u.grid[row]).length = u.width := hrows _ (u.grid.getElem_mem hr')
  have hc' : column < (u.grid[row]).length := by rwa [hrowlen]
  have hcell : u.cellAt row column = (u.grid[row])[column] := by
    simp [Universe.cellAt, Universe.getCell, List.getElem?_eq_getElem, hr', hc']
  refine ⟨Universe.mk (u.grid.set row ((u.grid[row]).set column { (u.grid[row])[column] with state := s })) u.height u.width, ?_, rfl, rfl, ⟨by simpa using hlen, ?_⟩, ?_⟩
  · simp [Universe.set_cell, List.getElem?_eq_getElem, hr', hc']
  · intro rw hmem
    rcases List.mem_or_eq_of_mem_set hmem with h | h
    · exact hrows _ h
    · simp [h, hrowlen]
  · intro r c
    by_cases hrr : r = row
    · subst hrr
      by_cases hcc : c = column
      · subst hcc
        simp [Universe.getCell, List.getElem?_set_eq_of_lt _ hr',
          List.getElem?_set_eq_of_lt _ hc', hcell]
      · simp [Universe.getCell, List.getElem?_set_eq_of_lt _ hr',
          List.getElem?_set_ne (fun h => hcc h.symm), hcc,
          List.getElem?_eq_getElem hr']
    · simp [Universe.getCell, List.getElem?_set_ne (fun h => hrr h.symm), hrr]

/-- `setCache` (the modelled `set_live_neighbors` write) on an in-bounds
position with a 7-bit value succeeds, keeps dimensions and shape, rewrites
exactly the addressed cell's cached count (state untouched), and leaves every
other position alone. -/
theorem Universe.setCache_spec (u : Universe) (hwf : u.wf) {row column n : Nat}
    (hr : row < u.height) (hc : column < u.width) (hn : n < 128) :
    ∃ u2, u.setCache row column n = some u2 ∧ u2.height = u.height ∧ u2.width = u.width ∧
      u2.wf ∧ ∀ r c, u2.getCell r c =
        if r = row ∧ c = column then some { u.cellAt row column with live_neighbors := n }
        else u.getCell r c := by
  obtain ⟨hlen, hrows⟩ := hwf
  have hr' : row < u.grid.length := by rwa [hlen]
  have hrowlen : (u.grid[row]).length = u.width := hrows _ (u.grid.getElem_mem hr')
  have hc' : column < (u.grid[row]).length := by rwa [hrowlen]
  have hcell : u.cellAt row column = (u.grid[row])[column] := by
    simp [Universe.cellAt, Universe.getCell, List.getElem?_eq_getElem, hr', hc']
  refine ⟨Universe.mk (u.grid.set row ((u.grid[row]).set column { (u.grid[row])[column] with live_neighbors := n })) u.height u.width, ?_, rfl, rfl, ⟨by simpa using hlen, ?_⟩, ?_⟩
  · simp [Universe.setCache, hn, List.getElem?_eq_getElem, hr', hc']
  · intro rw hmem
    rcases List.mem_or_eq_of_mem_set hmem with h | h
    · exact hrows _ h
    · simp [h, hrowlen]
  · intro r c
    by_cases hrr : r = row
    · subst hrr
      by_cases hcc : c = column
      · subst hcc
        simp [Universe.getCell, List.getElem?_set_eq_of_lt _ hr',
          List.getElem?_set_eq_of_lt _ hc', hcell]
      · simp [Universe.getCell, List.getElem?_set_eq_of_lt _ hr',
          List.getElem?_set_ne (fun h => hcc h.symm), hcc,
          List.getElem?_eq_getElem hr']
    · simp [Universe.getCell, List.getElem?_set_ne (fun h => hrr h.symm), hrr]

/-- `specNeighborSum` never exceeds 8: the filtered offset-pair list has at
most 8 entries and each contributes at most 1. -/
theorem specNeighborSum_le_eight (u : Universe) (row column : Nat) :
    specNeighborSum u row column ≤ 8 := by
  have hlen : (offsetPairs u.height u.width).length ≤ 8 := by
    by_cases h1 : u.height - 1 = 0 <;> by_cases h2 : u.width - 1 = 0
    · simp [offsetPairs, h1, h2, List.filter]
    · have e2 : (u.width - 1 == 0) = false := by simpa using h2
      simp [offsetPairs, h1, e2, List.filter]
    · have e1 : (u.height - 1 == 0) = false := by simpa using h1
      simp [offsetPairs, e1, h2, List.filter]
    · have e1 : (u.height - 1 == 0) = false := by simpa using h1
      have e2 : (u.width - 1 == 0) = false := by simpa using h2
      simp [offsetPairs, e1, e2, List.filter]
  have hsum := List.sum_le_card_nsmul
    ((offsetPairs u.height u.width).map fun p =>
      (u.stateAt ((row + p.1) % u.height) ((column + p.2) % u.width)).asU8) 1
    (by
      intro x hx
      obtain ⟨p, _, rfl⟩ := List.mem_map.mp hx
      exact State.asU8_le_one _)
  simp only [List.length_map, smul_eq_mul, mul_one] at hsum
  exact le_trans hsum hlen

/-- `specNeighborSum` only reads the dimensions and the state fields. -/
theorem specNeighborSum_congr (u v : Universe) (hh : v.height = u.height)
    (hw : v.width = u.width) (hs : ∀ r c, v.stateAt r c = u.stateAt r c)
    (row column : Nat) :
    specNeighborSum v row column = specNeighborSum u row column := by
  unfold specNeighborSum
  rw [hh, hw]
  simp only [hs]

/-- The source's fold computes exactly the spec's sum over the filtered
offset-pair list, for any positive dimensions and any starting indices. -/
theorem Universe.live_neighbor_count_eq_spec (u : Universe) (hwf : u.wf)
    (hH : 0 < u.height) (hW : 0 < u.width) (row column : Nat) :
    u.live_neighbor_count row column = some (specNeighborSum u row column) := by
  have hget : ∀ a b : Nat,
      u.getCell (a % u.height) (b % u.width) = some (u.cellAt (a % u.height) (b % u.width)) :=
    fun a b => u.getCell_eq_some hwf (Nat.mod_lt _ hH) (Nat.mod_lt _ hW)
  by_cases h1 : u.height - 1 = 0 <;> by_cases h2 : u.width - 1 = 0
  · simp [Universe.live_neighbor_count, specNeighborSum, offsetPairs, Universe.stateAt,
      modChecked, Nat.pos_iff_ne_zero.mp hH, Nat.pos_iff_ne_zero.mp hW, hget, h1, h2,
      List.filter, List.foldl]
    omega
  · have e2 : (u.width - 1 == 0) = false := by simpa using h2
    simp [Universe.live_neighbor_count, specNeighborSum, offsetPairs, Universe.stateAt,
      modChecked, Nat.pos_iff_ne_zero.mp hH, Nat.pos_iff_ne_zero.mp hW, hget, h1, h2, e2,
      List.filter, List.foldl]
    omega
  · have e1 : (u.height - 1 == 0) = false := by simpa using h1
    simp [Universe.live_neighbor_count, specNeighborSum, offsetPairs, Universe.stateAt,
      modChecked, Nat.pos_iff_ne_zero.mp hH, Nat.pos_iff_ne_zero.mp hW, hget, h1, h2, e1,
      List.filter, List.foldl]
    omega
  · have e1 : (u.height - 1 == 0) = false := by simpa using h1
    have e2 : (u.width - 1 == 0) = false := by simpa using h2
    simp [Universe.live_neighbor_count, specNeighborSum, offsetPairs, Universe.stateAt,
      modChecked, Nat.pos_iff_ne_zero.mp hH, Nat.pos_iff_ne_zero.mp hW, hget, h1, h2, e1, e2,
      List.filter, List.foldl]
    omega

theorem mem_indexPairs {h w r c : Nat} : (r, c) ∈ indexPairs h w ↔ r < h ∧ c < w := by
  simp [indexPairs, List.mem_flatMap, List.mem_map, List.mem_range]

/-- The source's per-cell transition agrees with the spec's transition table
on the state, for every cached count. -/
theorem Cell.evolve_state (c : Cell) :
    (Cell.evolve c).state = lifeRule c.state c.live_neighbors := by
  rcases c with ⟨s, n⟩
  cases s <;> rcases n with _ | _ | _ | _ | n <;>
    simp [Cell.evolve, lifeRule]

/-- The caching pass, run over any worklist of in-bounds positions starting
from any universe that agrees with `u` on dimensions and states, succeeds and
yields a universe whose visited cells hold the pre-pass state together with
the neighbor count of the pre-pass grid, every other cell being untouched. -/
theorem Universe.cacheFold (u : Universe) :
    ∀ (L : List (Nat × Nat)) (acc : Universe),
      (∀ p ∈ L, p.1 < u.height ∧ p.2 < u.width) →
      acc.height = u.height → acc.width = u.width → acc.wf →
      (∀ r c, acc.stateAt r c = u.stateAt r c) →
      ∃ v : Universe,
        List.foldlM (fun acc2 p =>
          (Universe.live_neighbor_count acc2 p.1 p.2).bind fun n =>
            Universe.setCache acc2 p.1 p.2 n) acc L = some v ∧
        v.height = u.height ∧ v.width = u.width ∧ v.wf ∧
        (∀ r c, v.stateAt r c = u.stateAt r c) ∧
        (∀ r c, (r, c) ∈ L → v.cellAt r c =
          { state := u.stateAt r c, live_neighbors := specNeighborSum u r c }) ∧
        (∀ r c, (r, c) ∉ L → v.getCell r c = acc.getCell r c) := by
  intro L
  induction L with
  | nil =>
    intro acc _ hh hw hacc hst
    exact ⟨acc, rfl, hh, hw, hacc, hst, fun r c h => absurd h (List.not_mem_nil _), fun _ _ _ => rfl⟩
  | cons p L ih =>
    rintro acc hL hh hw hacc hst
    obtain ⟨hpr, hpc⟩ := hL p (List.mem_cons_self p L)
    have hH : 0 < u.height := Nat.lt_of_le_of_lt (Nat.zero_le _) hpr
    have hW : 0 < u.width := Nat.lt_of_le_of_lt (Nat.zero_le _) hpc
    have hHacc : 0 < acc.height := by rw [hh]; exact hH
    have hWacc : 0 < acc.width := by rw [hw]; exact hW
    have hcount : acc.live_neighbor_count p.1 p.2 = some (specNeighborSum u p.1 p.2) := by
      rw [acc.live_neighbor_count_eq_spec hacc hHacc hWacc p.1 p.2,
        specNeighborSum_congr u acc hh hw hst p.1 p.2]
    obtain ⟨acc2, hset, h2h, h2w, h2wf, h2get⟩ :=
      acc.setCache_spec hacc (show p.1 < acc.height by rw [hh]; exact hpr)
        (show p.2 < acc.width by rw [hw]; exact hpc)
        (show specNeighborSum u p.1 p.2 < 128 from
          Nat.lt_of_le_of_lt (specNeighborSum_le_eight u p.1 p.2) (by norm_num))
    have h2st : ∀ r c, acc2.stateAt r c = u.stateAt r c := by
      intro r c
      by_cases hq : r = p.1 ∧ c = p.2
      · obtain ⟨e1, e2⟩ := hq
        subst e1; subst e2
        simp only [Universe.stateAt, Universe.cellAt, h2get, if_pos (And.intro rfl rfl),
          Option.getD_some]
        exact hst _ _
      · simp only [Universe.stateAt, Universe.cellAt, h2get, if_neg hq]
        exact hst r c
    have hL2 : ∀ q ∈ L, q.1 < u.height ∧ q.2 < u.width :=
      fun q hq => hL q (List.mem_cons_of_mem _ hq)
    obtain ⟨v, hfold, hvh, hvw, hvwf, hvst, hvmem, hvnot⟩ :=
      ih acc2 hL2 (h2h.trans hh) (h2w.trans hw) h2wf h2st
    refine ⟨v, ?_, hvh, hvw, hvwf, hvst, ?_, ?_⟩
    · simp only [List.foldlM_cons, hcount, Option.bind_some, hset, hfold]
      simp [hset, hfold]
    · intro r c hmem
      rcases List.mem_cons.mp hmem with hq | hq
      · subst hq
        by_cases hin : (r, c) ∈ L
        · exact hvmem r c hin
        · have hs2 : (acc.cellAt r c).state = u.stateAt r c := hst r c
          simp only [Universe.cellAt, hvnot r c hin, h2get, if_pos (And.intro rfl rfl),
            Option.getD_some]
          rw [Cell.mk.injEq]
          exact ⟨hs2, rfl⟩
      · exact hvmem r c hq
    · intro r c hnot
      have h1 : (r, c) ∉ L := fun h => hnot (List.mem_cons_of_mem _ h)
      have h2 : ¬((r, c) = p) := fun h => hnot (h ▸ List.mem_cons_self p L)
      have h3 : ¬(r = p.1 ∧ c = p.2) := by
        rintro ⟨e1, e2⟩
        exact h2 (by rw [e1, e2])
      rw [hvnot r c h1, h2get r c, if_neg h3]

/-- `evolve` on any well-formed universe with positive dimensions succeeds,
preserves the dimensions and shape, and produces exactly the state grid that
the naive double-buffered reference computes from the pre-evolve grid. -/
theorem Universe.evolve_spec (u : Universe) (hwf : u.wf) :
    ∃ v, u.evolve = some v ∧ v.height = u.height ∧ v.width = u.width ∧ v.wf ∧
      v.state_grid = specNextStateGrid u := by
  obtain ⟨m, hfold, hmh, hmw, hmwf, hmst, hmmem, -⟩ :=
    u.cacheFold (indexPairs u.height u.width) u
      (fun p hp => by
        rcases p with ⟨r, c⟩
        exact mem_indexPairs.mp hp) rfl rfl hwf (fun _ _ => rfl)
  have hcache : u.cacheNeighbors = some m := by
    unfold Universe.cacheNeighbors
    exact hfold
  obtain ⟨hmlen, hmrows⟩ := hmwf
  refine ⟨Universe.mk (m.grid.map fun row => row.map Cell.evolve) m.height m.width,
    ?_, hmh, hmw, ?_, ?_⟩
  · simp [Universe.evolve, hcache]
  · constructor
    · simpa using hmlen
    · intro row hrow
      obtain ⟨orig, horig, rfl⟩ := List.mem_map.mp hrow
      simpa using hmrows orig horig
  · apply List.ext_getElem
    · simp [Universe.state_grid, specNextStateGrid, hmlen, hmh]
    · intro r h1 h2
      simp only [Universe.state_grid, specNextStateGrid, List.getElem_map, List.map_map,
        List.length_map, List.length_range] at h1 h2 ⊢
      have hr : r < u.height := h2
      have hrg : r < m.grid.length := by simpa using h1
      rw [List.getElem_range]
      apply List.ext_getElem
      · simpa [hmw] using hmrows _ (m.grid.getElem_mem hrg)
      · intro c hc1 hc2
        simp only [Function.comp, List.length_map, List.length_range] at hc1 hc2
        have hc : c < u.width := hc2
        have hcg : c < (m.grid[r]).length := hc1
        have hcell : m.cellAt r c = (m.grid[r])[c] := by
          simp [Universe.cellAt, Universe.getCell, List.getElem?_eq_getElem, hrg, hcg]
        have hval := hmmem r c (mem_indexPairs.mpr ⟨hr, hc⟩)
        rw [hcell] at hval
        simp only [List.getElem_map, List.getElem_range, Function.comp]
        rw [hval, Cell.evolve_state]

theorem Universe.new_wf (W H : Nat) : (Universe.new W H).wf := by
  constructor
  · simp [Universe.new]
  · intro row hrow
    simp only [Universe.new] at hrow
    rw [List.eq_of_mem_replicate hrow]
    simp [Universe.new]

/-- `Cell.evolve` never changes the cached count, only the state. -/
theorem Cell.evolve_cache (c : Cell) : (Cell.evolve c).live_neighbors = c.live_neighbors := by
  rcases c with ⟨s, n⟩
  rfl

/-- Reading a position of a cell-wise mapped grid. -/
theorem Universe.getCell_mapped (g : List (List Cell)) (h w : Nat) (f : Cell → Cell)
    (r c : Nat) :
    (Universe.mk (g.map fun row => row.map f) h w).getCell r c =
      ((Universe.mk g h w).getCell r c).map f := by
  unfold Universe.getCell
  simp only [List.getElem?_map]
  cases g[r]? with
  | none => rfl
  | some row => simp [List.getElem?_map]

/-- `set_cell` succeeds exactly when reading the same position succeeds. -/
theorem Universe.set_cell_isSome_eq (u : Universe) (row column : Nat) (s : State) :
    (u.set_cell row column s).isSome = (u.getCell row column).isSome := by
  unfold Universe.set_cell Universe.getCell
  cases u.grid[row]? with
  | none => rfl
  | some r =>
    cases hcol : r[column]? with
    | none => simp [hcol]
    | some cell => simp [hcol]

/-! ## Claim theorems -/

/-- C1: for every well-formed `Universe` with `W, H ≥ 1` and every starting
grid, `evolve()` succeeds and produces exactly the state grid of the naive
double-buffered reference, which computes every cell's next state from the
unmodified pre-evolve grid — no transition sees another cell's updated value,
despite the in-place per-cell caching of neighbor counts. -/
theorem evolve_equals_naive_reference (u : Universe) (hwf : u.wf)
    (hW : 1 ≤ u.width) (hH : 1 ≤ u.height) :
    ∃ v, u.evolve = some v ∧ v.height = u.height ∧ v.width = u.width ∧
      v.state_grid = specNextStateGrid u := by
  obtain ⟨v, h1, h2, h3, _, h5⟩ := u.evolve_spec hwf
  exact ⟨v, h1, h2, h3, h5⟩

theorem evolve_equals_naive_reference_witness :
    (Universe.new 2 2).wf ∧ 1 ≤ (Universe.new 2 2).width ∧ 1 ≤ (Universe.new 2 2).height ∧
    ∃ v, (Universe.new 2 2).evolve = some v ∧ v.height = (Universe.new 2 2).height ∧
      v.width = (Universe.new 2 2).width ∧
      v.state_grid = specNextStateGrid (Universe.new 2 2) :=
  ⟨Universe.new_wf 2 2, by decide, by decide,
    evolve_equals_naive_reference (Universe.new 2 2) (Universe.new_wf 2 2)
      (by decide) (by decide)⟩

/-- C2: one application of the transition rule maps an `Alive` cell with `n`
live neighbors to `Alive` exactly when `n` is 2 or 3 (otherwise `Dead`), and
a `Dead` cell to `Alive` exactly when `n` is 3 (otherwise `Dead`), for every
count `n` in `0..=8` — the B3/S23 rule. -/
theorem cell_evolve_b3s23 (n : Nat) (hn : n ≤ 8) :
    ((Cell.evolve { state := State.Alive, live_neighbors := n }).state =
      if n = 2 ∨ n = 3 then State.Alive else State.Dead) ∧
    ((Cell.evolve { state := State.Dead, live_neighbors := n }).state =
      if n = 3 then State.Alive else State.Dead) := by
  interval_cases n <;> constructor <;> decide

theorem cell_evolve_b3s23_witness :
    (3 : Nat) ≤ 8 ∧
    (((Cell.evolve { state := State.Alive, live_neighbors := 3 }).state =
      if (3 : Nat) = 2 ∨ (3 : Nat) = 3 then State.Alive else State.Dead) ∧
    ((Cell.evolve { state := State.Dead, live_neighbors := 3 }).state =
      if (3 : Nat) = 3 then State.Alive else State.Dead)) :=
  ⟨by decide, cell_evolve_b3s23 3 (by decide)⟩

/-- C3: for `W, H ≥ 2` and every in-bounds position, `live_neighbor_count`
returns exactly the spec's sum over the 8 offset pairs of
`{H-1, 0, 1} × {W-1, 0, 1}` minus `(0, 0)`, each contributing 1 for an
`Alive` wrapped neighbor, and the result is at most 8. -/
theorem live_neighbor_count_matches_spec (u : Universe) (hwf : u.wf)
    (hH : 2 ≤ u.height) (hW : 2 ≤ u.width) {row column : Nat}
    (hr : row < u.height) (hc : column < u.width) :
    u.live_neighbor_count row column = some (specNeighborSum u row column) ∧
    (offsetPairs u.height u.width).length = 8 ∧
    specNeighborSum u row column ≤ 8 := by
  refine ⟨u.live_neighbor_count_eq_spec hwf (by omega) (by omega) row column, ?_,
    specNeighborSum_le_eight u row column⟩
  have e1 : (u.height - 1 == 0) = false := by
    simp only [beq_eq_false_iff_ne, ne_eq]
    omega
  have e2 : (u.width - 1 == 0) = false := by
    simp only [beq_eq_false_iff_ne, ne_eq]
    omega
  simp [offsetPairs, e1, e2, List.filter]

theorem live_neighbor_count_matches_spec_witness :
    (Universe.new 3 3).wf ∧ 2 ≤ (Universe.new 3 3).height ∧ 2 ≤ (Universe.new 3 3).width ∧
    (1 : Nat) < (Universe.new 3 3).height ∧ (2 : Nat) < (Universe.new 3 3).width ∧
    ((Universe.new 3 3).live_neighbor_count 1 2 =
      some (specNeighborSum (Universe.new 3 3) 1 2) ∧
    (offsetPairs (Universe.new 3 3).height (Universe.new 3 3).width).length = 8 ∧
    specNeighborSum (Universe.new 3 3) 1 2 ≤ 8) :=
  ⟨Universe.new_wf 3 3, by decide, by decide, by decide, by decide,
    live_neighbor_count_matches_spec (Universe.new 3 3) (Universe.new_wf 3 3)
      (by decide) (by decide) (by decide) (by decide)⟩

/-- C4 counterexample: on the 1×1 universe whose only cell is `Alive`,
`live_neighbor_count(0, 0)` returns 5, not `8 × (own state as 0/1) = 8`:
with `H = W = 1` both delta lists are `[0, 0, 1]`, so the value-based
`(0, 0)` skip removes 4 of the 9 offset pairs, not just 1. -/
theorem live_neighbor_count_1x1_not_eight :
    (((Universe.new 1 1).set_cell 0 0 State.Alive).map fun u =>
      u.live_neighbor_count 0 0) = some (some 5) ∧
    (((Universe.new 1 1).set_cell 0 0 State.Alive).map fun u =>
      8 * (u.stateAt 0 0).asU8) = some 8 ∧ ¬((5 : Nat) = 8) := by
  decide

/-- C4 (amended): for a 1×1 universe the single cell is its own wrapped
neighbor on each of the 5 offset pairs that survive the value-based `(0, 0)`
exclusion, so `live_neighbor_count(0, 0)` returns `5 × (own state as 0/1)`. -/
theorem live_neighbor_count_1x1_five (u : Universe) (hwf : u.wf)
    (hh : u.height = 1) (hw : u.width = 1) :
    u.live_neighbor_count 0 0 = some (5 * (u.stateAt 0 0).asU8) := by
  rw [u.live_neighbor_count_eq_spec hwf (by omega) (by omega) 0 0]
  congr 1
  simp [specNeighborSum, offsetPairs, hh, hw, List.filter]
  omega

theorem live_neighbor_count_1x1_five_witness :
    (Universe.mk [[Cell.mk State.Alive 0]] 1 1).wf ∧
    (Universe.mk [[Cell.mk State.Alive 0]] 1 1).height = 1 ∧
    (Universe.mk [[Cell.mk State.Alive 0]] 1 1).width = 1 ∧
    (Universe.mk [[Cell.mk State.Alive 0]] 1 1).live_neighbor_count 0 0 =
      some (5 * ((Universe.mk [[Cell.mk State.Alive 0]] 1 1).stateAt 0 0).asU8) :=
  ⟨⟨rfl, by decide⟩, rfl, rfl,
    live_neighbor_count_1x1_five (Universe.mk [[Cell.mk State.Alive 0]] 1 1)
      ⟨rfl, by decide⟩ rfl rfl⟩

/-- C5: for all dimensions `W, H ≥ 1`, `new()` yields a grid in which every
cell is `Dead`. -/
theorem new_universe_all_dead (W H : Nat) (hW : 1 ≤ W) (hH : 1 ≤ H) :
    (Universe.new W H).state_grid = List.replicate H (List.replicate W State.Dead) := by
  simp [Universe.new, Universe.state_grid, Cell.default, Cell.new, List.map_replicate]

theorem new_universe_all_dead_witness :
    (1 : Nat) ≤ 2 ∧ (1 : Nat) ≤ 3 ∧
    (Universe.new 2 3).state_grid = List.replicate 3 (List.replicate 2 State.Dead) :=
  ⟨by decide, by decide, new_universe_all_dead 2 3 (by decide) (by decide)⟩

/-- C6: writing an in-bounds cell with `set_cell` succeeds, the written
position then reads back the written state through the grid, and every other
position is unchanged — `set_cell` mutates exactly one cell. -/
theorem set_cell_frame (u : Universe) (hwf : u.wf) (s : State) {row column : Nat}
    (hr : row < u.height) (hc : column < u.width) :
    ∃ u2, u.set_cell row column s = some u2 ∧
      (u2.getCell row column).map Cell.state = some s ∧
      ∀ r c, ¬(r = row ∧ c = column) → u2.getCell r c = u.getCell r c := by
  obtain ⟨u2, h1, _, _, _, h5⟩ := u.set_cell_spec hwf hr hc s
  refine ⟨u2, h1, ?_, ?_⟩
  · rw [h5 row column, if_pos ⟨rfl, rfl⟩]
    rfl
  · intro r c hne
    rw [h5 r c, if_neg hne]

theorem set_cell_frame_witness :
    (Universe.new 2 2).wf ∧ (0 : Nat) < (Universe.new 2 2).height ∧
    (1 : Nat) < (Universe.new 2 2).width ∧
    ∃ u2, (Universe.new 2 2).set_cell 0 1 State.Alive = some u2 ∧
      (u2.getCell 0 1).map Cell.state = some State.Alive ∧
      ∀ r c, ¬(r = 0 ∧ c = 1) → u2.getCell r c = (Universe.new 2 2).getCell r c :=
  ⟨Universe.new_wf 2 2, by decide, by decide,
    set_cell_frame (Universe.new 2 2) (Universe.new_wf 2 2) State.Alive
      (by decide) (by decide)⟩

/-- C7: on a 3×3 universe with only cell `(0, 0)` alive, one `evolve()`
leaves every cell `Dead`. -/
theorem evolve_3x3_lone_cell_dies :
    (((Universe.new 3 3).set_cell 0 0 State.Alive).bind Universe.evolve).map
      Universe.state_grid = some (List.replicate 3 (List.replicate 3 State.Dead)) := by
  decide

/-- C8: on a 4×4 universe with exactly `(0,0)`, `(0,1)`, `(1,0)` alive, one
`evolve()` yields exactly the 2×2 block `(0,0),(0,1),(1,0),(1,1)` alive, and
a second `evolve()` leaves those cell states unchanged (fixed point). -/
theorem evolve_4x4_block_fixed_point :
    (((((Universe.new 4 4).set_cell 0 0 State.Alive).bind fun u =>
        (u.set_cell 0 1 State.Alive).bind fun u2 =>
          u2.set_cell 1 0 State.Alive).bind Universe.evolve).map Universe.state_grid =
      some [[State.Alive, State.Alive, State.Dead, State.Dead],
        [State.Alive, State.Alive, State.Dead, State.Dead],
        [State.Dead, State.Dead, State.Dead, State.Dead],
        [State.Dead, State.Dead, State.Dead, State.Dead]]) ∧
    ((((((Universe.new 4 4).set_cell 0 0 State.Alive).bind fun u =>
        (u.set_cell 0 1 State.Alive).bind fun u2 =>
          u2.set_cell 1 0 State.Alive).bind Universe.evolve).bind
            Universe.evolve).map Universe.state_grid =
      some [[State.Alive, State.Alive, State.Dead, State.Dead],
        [State.Alive, State.Alive, State.Dead, State.Dead],
        [State.Dead, State.Dead, State.Dead, State.Dead],
        [State.Dead, State.Dead, State.Dead, State.Dead]]) := by
  constructor <;> decide

/-- C9: `new` always yields a well-formed universe, `evolve` succeeds on
every well-formed universe (no reachable panic), and `set_cell` faults
exactly on out-of-range positions: it succeeds iff `row < H` and
`column < W`. -/
theorem operations_never_fault (u : Universe) (hwf : u.wf) :
    (∀ W H : Nat, (Universe.new W H).wf) ∧
    u.evolve.isSome ∧
    ∀ row column s, (u.set_cell row column s).isSome ↔
      row < u.height ∧ column < u.width := by
  refine ⟨Universe.new_wf, ?_, ?_⟩
  · obtain ⟨v, hv, -, -, -, -⟩ := u.evolve_spec hwf
    rw [hv]
    rfl
  · intro row column s
    rw [u.set_cell_isSome_eq row column s]
    exact u.getCell_isSome_iff hwf row column

theorem operations_never_fault_witness :
    (Universe.new 2 2).wf ∧
    ((∀ W H : Nat, (Universe.new W H).wf) ∧
    (Universe.new 2 2).evolve.isSome ∧
    ∀ row column s, ((Universe.new 2 2).set_cell row column s).isSome ↔
      row < (Universe.new 2 2).height ∧ column < (Universe.new 2 2).width) :=
  ⟨Universe.new_wf 2 2, operations_never_fault (Universe.new 2 2) (Universe.new_wf 2 2)⟩

/-- C10: the hidden cached `live_neighbors` field is part of `Cell`'s derived
equality (two cells with equal states can compare unequal); `set_cell` leaves
the cache untouched; `evolve` overwrites every in-bounds cell's cache with the
pre-evolve grid's neighbor count; consequently an evolved universe and a
fresh one can have identical state grids yet unequal `Cell` grids. -/
theorem cell_cache_and_equality (u : Universe) (hwf : u.wf) :
    ((Cell.mk State.Dead 0).state = (Cell.mk State.Dead 2).state ∧
      Cell.mk State.Dead 0 ≠ Cell.mk State.Dead 2) ∧
    (∀ row column s u2, u.set_cell row column s = some u2 →
      (u2.getCell row column).map Cell.live_neighbors =
        (u.getCell row column).map Cell.live_neighbors) ∧
    (∀ v, u.evolve = some v → ∀ r c, r < u.height → c < u.width →
      some ((v.cellAt r c).live_neighbors) = u.live_neighbor_count r c) ∧
    (∃ u1, ((Universe.new 3 3).set_cell 0 0 State.Alive).bind Universe.evolve = some u1 ∧
      u1.state_grid = (Universe.new 3 3).state_grid ∧
      u1.grid ≠ (Universe.new 3 3).grid) := by
  refine ⟨by decide, ?_, ?_, ?_⟩
  · intro row column s u2 h
    have hsome : (u.getCell row column).isSome := by
      rw [← u.set_cell_isSome_eq row column s, h]
      rfl
    obtain ⟨hr, hc⟩ := (u.getCell_isSome_iff hwf row column).mp hsome
    obtain ⟨u2x, h1, -, -, -, h5⟩ := u.set_cell_spec hwf hr hc s
    rw [h1] at h
    simp only [Option.some.injEq] at h
    subst h
    rw [h5 row column, if_pos ⟨rfl, rfl⟩, u.getCell_eq_some hwf hr hc]
    rfl
  · obtain ⟨m, hfold, hmh, hmw, hmwf, hmst, hmmem, -⟩ :=
      u.cacheFold (indexPairs u.height u.width) u
        (fun p hp => by
          rcases p with ⟨a, b⟩
          exact mem_indexPairs.mp hp) rfl rfl hwf (fun _ _ => rfl)
    have hcache : u.cacheNeighbors = some m := by
      unfold Universe.cacheNeighbors
      exact hfold
    intro v hv r c hr hc
    have hev : u.evolve =
        some (Universe.mk (m.grid.map fun row => row.map Cell.evolve) m.height m.width) := by
      simp [Universe.evolve, hcache]
    rw [hev] at hv
    simp only [Option.some.injEq] at hv
    subst hv
    have hget : m.getCell r c = some (m.cellAt r c) :=
      m.getCell_eq_some hmwf (by rw [hmh]; exact hr) (by rw [hmw]; exact hc)
    have hmap := Universe.getCell_mapped m.grid m.height m.width Cell.evolve r c
    have hmeta : (Universe.mk m.grid m.height m.width) = m := rfl
    rw [hmeta, hget] at hmap
    have hcell : ((Universe.mk (m.grid.map fun row => row.map Cell.evolve)
        m.height m.width).cellAt r c) = Cell.evolve (m.cellAt r c) := by
      simp [Universe.cellAt, hmap]
    rw [hcell, Cell.evolve_cache, hmmem r c (mem_indexPairs.mpr ⟨hr, hc⟩),
      u.live_neighbor_count_eq_spec hwf (Nat.lt_of_le_of_lt (Nat.zero_le _) hr)
        (Nat.lt_of_le_of_lt (Nat.zero_le _) hc) r c]
  · refine ⟨Universe.mk [[Cell.mk State.Dead 0, Cell.mk State.Dead 1, Cell.mk State.Dead 1],
      [Cell.mk State.Dead 1, Cell.mk State.Dead 1, Cell.mk State.Dead 1],
      [Cell.mk State.Dead 1, Cell.mk State.Dead 1, Cell.mk State.Dead 1]] 3 3, ?_, ?_, ?_⟩
    · decide
    · decide
    · decide

theorem cell_cache_and_equality_witness :
    (Universe.new 2 2).wf ∧
    (((Cell.mk State.Dead 0).state = (Cell.mk State.Dead 2).state ∧
      Cell.mk State.Dead 0 ≠ Cell.mk State.Dead 2) ∧
    (∀ row column s u2, (Universe.new 2 2).set_cell row column s = some u2 →
      (u2.getCell row column).map Cell.live_neighbors =
        ((Universe.new 2 2).getCell row column).map Cell.live_neighbors) ∧
    (∀ v, (Universe.new 2 2).evolve = some v → ∀ r c,
      r < (Universe.new 2 2).height → c < (Universe.new 2 2).width →
      some ((v.cellAt r c).live_neighbors) = (Universe.new 2 2).live_neighbor_count r c) ∧
    (∃ u1, ((Universe.new 3 3).set_cell 0 0 State.Alive).bind Universe.evolve = some u1 ∧
      u1.state_grid = (Universe.new 3 3).state_grid ∧
      u1.grid ≠ (Universe.new 3 3).grid)) :=
  ⟨Universe.new_wf 2 2, cell_cache_and_equality (Universe.new 2 2) (Universe.new_wf 2 2)⟩
